import Mathlib

/-!
Verification development for the TV-show file organizer
(`优化代码.py`, class `TVShowProcessor`).

The Python program is shallowly embedded:

* strings are `String` / `List Char`; each regular expression of the
  configuration is modelled by a bespoke search (and, where the code calls
  `re.sub`, substitution) function that reproduces the semantics of that
  particular pattern under `re.search` / `re.sub` (leftmost match, greedy
  and lazy quantifiers as in the pattern, `.` not matching a newline);
  character classes `\d` and `\s` are modelled over their ASCII members,
  which covers every string the program manipulates;
* paths are lists of components (`os.path.join` is list append,
  `os.path.dirname` drops the last component);
* the filesystem is a table of regular files (path to file data) plus a
  list of existing directories; `shutil.move` follows the documented
  semantics: moving into an existing directory appends the source
  basename, otherwise an existing destination file is silently replaced
  (POSIX `os.rename` / `copy2` fallback);
* transient I/O failure is injected through an oracle `env : Nat → Bool`
  giving the outcome of the n-th `shutil.move` call of the run; every
  `shutil.move` call is also recorded in a ghost trace `moveCalls`;
* the checkpoint file and the undo-log file are carried in the run state;
  the program is their only writer, so the file contents coincide with
  the in-memory values it persists.
-/

/-! ## Character classes and small string utilities -/

/-- ASCII whitespace, the members of the regex class backslash-s that can
occur in the file names the program handles. -/
def isSpaceC (c : Char) : Bool :=
  c == ' ' || c == '\t' || c == '\n' || c == '\r' || c == '\x0b' || c == '\x0c'

/-- Characters of the regex class `[\s\.]` used by the `Season` directory
pattern. -/
def isSepSD (c : Char) : Bool :=
  isSpaceC c || c == '.'

/-- Characters of the regex class `[\s\.-]` used by the fifth title+season
pattern. -/
def isSepSDH (c : Char) : Bool :=
  isSpaceC c || c == '.' || c == '-'

/-- Characters of the regex class `[\._\-]` used by
`_extract_title_from_filename`. -/
def isSepTH (c : Char) : Bool :=
  c == '.' || c == '_' || c == '-'

/-- CJK numerals accepted by the class `[一二三四五六七八九十]`. -/
def cnDigit10 (c : Char) : Bool :=
  "一二三四五六七八九十".toList.contains c

/-- CJK numerals accepted by the class `[一二三四五六七八九十百]` of the
fifth episode pattern. -/
def cnDigit11 (c : Char) : Bool :=
  "一二三四五六七八九十百".toList.contains c

/-- Characters of the range `[一-鿿]` used by `_filter_chinese`. -/
def isCJKb (c : Char) : Bool :=
  decide (0x4e00 ≤ c.toNat) && decide (c.toNat ≤ 0x9fff)

/-- Prefix test on character lists. -/
def isPrefixL : List Char → List Char → Bool
  | [], _ => true
  | _ :: _, [] => false
  | p :: ps, c :: cs => p == c && isPrefixL ps cs

/-- Substring test on character lists, modelling the Python `in` operator
on strings. -/
def isInfixL (pat : List Char) : List Char → Bool
  | [] => pat.isEmpty
  | c :: cs => isPrefixL pat (c :: cs) || isInfixL pat cs

/-- Python `str.lower()` restricted to the ASCII letters that occur in the
configured keyword lists. -/
def lowerStr (s : String) : String :=
  String.mk (s.toList.map Char.toLower)

/-- Python `str.strip()` over ASCII whitespace. -/
def trimL (s : List Char) : List Char :=
  ((s.dropWhile isSpaceC).reverse.dropWhile isSpaceC).reverse

/-! ## Directory-season patterns (config section `patterns.dir_season`)

The configured list, in order:
1. `[Ss](\d+)`
2. `Season[\s\.]*?(\d+)`
3. `第([一二三四五六七八九十]+)季`
4. `Season\s*([一二三四五六七八九十]+)`

For each pattern the code needs `pattern.search` (capture group 1) in
`_extract_info_from_dir` / `_extract_season_from_dir`, and
`re.sub` of the pattern with the empty replacement for the title of the
first branch. -/

/-- `re.search` of `[Ss](\d+)`: group 1 of the leftmost match. -/
def searchSnum : List Char → Option (List Char)
  | [] => none
  | c :: rest =>
    if (c == 'S' || c == 's') && !(rest.takeWhile Char.isDigit).isEmpty then
      some (rest.takeWhile Char.isDigit)
    else searchSnum rest

/-- Fuelled worker for `re.sub` of `[Ss](\d+)` with the empty replacement:
every non-overlapping match (letter plus its greedy digit run) is removed,
scanning left to right.  The fuel is an upper bound on the input length,
so the base case `0` is never taken. -/
def subSnumF : Nat → List Char → List Char
  | 0, s => s
  | fuel + 1, s =>
    match s with
    | [] => []
    | c :: rest =>
      if (c == 'S' || c == 's') && !(rest.takeWhile Char.isDigit).isEmpty then
        subSnumF fuel (rest.dropWhile Char.isDigit)
      else c :: subSnumF fuel rest

/-- `re.sub` of `[Ss](\d+)` with the empty replacement. -/
def subSnumAll (s : List Char) : List Char := subSnumF s.length s

/-- `re.search` of `Season[\s\.]*?(\d+)`: after the literal, the lazy
separator run can only stop where a digit starts, and separator characters
are never digits, so the whole separator run is skipped. -/
def searchSeasonNum : List Char → Option (List Char)
  | [] => none
  | c :: rest =>
    if isPrefixL "Season".toList (c :: rest) then
      let after := ((c :: rest).drop 6).dropWhile isSepSD
      let run := after.takeWhile Char.isDigit
      if !run.isEmpty then some run else searchSeasonNum rest
    else searchSeasonNum rest

/-- Fuelled worker for `re.sub` of `Season[\s\.]*?(\d+)`. -/
def subSeasonNumF : Nat → List Char → List Char
  | 0, s => s
  | fuel + 1, s =>
    match s with
    | [] => []
    | c :: rest =>
      if isPrefixL "Season".toList (c :: rest) then
        let after := ((c :: rest).drop 6).dropWhile isSepSD
        let run := after.takeWhile Char.isDigit
        if !run.isEmpty then subSeasonNumF fuel (after.dropWhile Char.isDigit)
        else c :: subSeasonNumF fuel rest
      else c :: subSeasonNumF fuel rest

/-- `re.sub` of `Season[\s\.]*?(\d+)` with the empty replacement. -/
def subSeasonNumAll (s : List Char) : List Char := subSeasonNumF s.length s

/-- `re.search` of `第([一二三四五六七八九十]+)季`: the greedy class run
must be followed by the literal 季 (a prefix of the run is always followed
by another class character, so backtracking cannot produce a shorter
group). -/
def searchDiJi : List Char → Option (List Char)
  | [] => none
  | c :: rest =>
    if c == '第' then
      let run := rest.takeWhile cnDigit10
      let after := rest.dropWhile cnDigit10
      if !run.isEmpty && after.head? == some '季' then some run
      else searchDiJi rest
    else searchDiJi rest

/-- Fuelled worker for `re.sub` of `第([一二三四五六七八九十]+)季`. -/
def subDiJiF : Nat → List Char → List Char
  | 0, s => s
  | fuel + 1, s =>
    match s with
    | [] => []
    | c :: rest =>
      if c == '第' then
        let run := rest.takeWhile cnDigit10
        let after := rest.dropWhile cnDigit10
        if !run.isEmpty && after.head? == some '季' then subDiJiF fuel (after.drop 1)
        else c :: subDiJiF fuel rest
      else c :: subDiJiF fuel rest

/-- `re.sub` of `第([一二三四五六七八九十]+)季` with the empty
replacement. -/
def subDiJiAll (s : List Char) : List Char := subDiJiF s.length s

/-- `re.search` of `Season\s*([一二三四五六七八九十]+)`. -/
def searchSeasonCn : List Char → Option (List Char)
  | [] => none
  | c :: rest =>
    if isPrefixL "Season".toList (c :: rest) then
      let after := ((c :: rest).drop 6).dropWhile isSpaceC
      let run := after.takeWhile cnDigit10
      if !run.isEmpty then some run else searchSeasonCn rest
    else searchSeasonCn rest

/-- Fuelled worker for `re.sub` of `Season\s*([一二三四五六七八九十]+)`. -/
def subSeasonCnF : Nat → List Char → List Char
  | 0, s => s
  | fuel + 1, s =>
    match s with
    | [] => []
    | c :: rest =>
      if isPrefixL "Season".toList (c :: rest) then
        let after := ((c :: rest).drop 6).dropWhile isSpaceC
        let run := after.takeWhile cnDigit10
        if !run.isEmpty then subSeasonCnF fuel (after.dropWhile cnDigit10)
        else c :: subSeasonCnF fuel rest
      else c :: subSeasonCnF fuel rest

/-- `re.sub` of `Season\s*([一二三四五六七八九十]+)` with the empty
replacement. -/
def subSeasonCnAll (s : List Char) : List Char := subSeasonCnF s.length s

/-! ## Episode patterns (config section `patterns.episode`)

Compiled with `re.IGNORECASE`; the configured list, in order:
1. `E(\d{1,3})`
2. `EP(\d{1,3})`
3. `\[第?(\d{1,3})[集话]\]`
4. `\s(\d{1,3})\.`
5. `第([一二三四五六七八九十百]+)[集话]`
6. `-\s*(\d{1,3})[\s\.]`
7. `集(\d{1,3})`

`_extract_episode` only needs `pattern.search` with capture group 1. -/

/-- `re.search` of `E(\d{1,3})` (ignorecase): the bounded greedy group is
the first at most three digits after the letter. -/
def searchEp1 : List Char → Option (List Char)
  | [] => none
  | c :: rest =>
    if (c == 'E' || c == 'e') && !(rest.takeWhile Char.isDigit).isEmpty then
      some ((rest.takeWhile Char.isDigit).take 3)
    else searchEp1 rest

/-- `re.search` of `EP(\d{1,3})` (ignorecase). -/
def searchEp2 : List Char → Option (List Char)
  | [] => none
  | c :: rest =>
    match rest with
    | p :: rest2 =>
      if (c == 'E' || c == 'e') && (p == 'P' || p == 'p')
          && !(rest2.takeWhile Char.isDigit).isEmpty then
        some ((rest2.takeWhile Char.isDigit).take 3)
      else searchEp2 rest
    | [] => none

/-- `re.search` of `\[第?(\d{1,3})[集话]\]`.  The bounded greedy digit
group must be followed by 集 or 话 and then a closing bracket; a run of
more than three digits cannot match, because backtracking only ever puts
another digit after the group. -/
def searchEp3 : List Char → Option (List Char)
  | [] => none
  | c :: rest =>
    if c == '[' then
      let body := if rest.head? == some '第' then rest.drop 1 else rest
      let run := body.takeWhile Char.isDigit
      let after := body.dropWhile Char.isDigit
      if !run.isEmpty && decide (run.length ≤ 3)
          && (after.head? == some '集' || after.head? == some '话')
          && (after.drop 1).head? == some ']' then
        some run
      else searchEp3 rest
    else searchEp3 rest

/-- `re.search` of `\s(\d{1,3})\.`. -/
def searchEp4 : List Char → Option (List Char)
  | [] => none
  | c :: rest =>
    if isSpaceC c then
      let run := rest.takeWhile Char.isDigit
      if !run.isEmpty && decide (run.length ≤ 3)
          && (rest.dropWhile Char.isDigit).head? == some '.' then
        some run
      else searchEp4 rest
    else searchEp4 rest

/-- `re.search` of `第([一二三四五六七八九十百]+)[集话]`. -/
def searchEp5 : List Char → Option (List Char)
  | [] => none
  | c :: rest =>
    if c == '第' then
      let run := rest.takeWhile cnDigit11
      let after := rest.dropWhile cnDigit11
      if !run.isEmpty && (after.head? == some '集' || after.head? == some '话') then
        some run
      else searchEp5 rest
    else searchEp5 rest

/-- `re.search` of `-\s*(\d{1,3})[\s\.]`. -/
def searchEp6 : List Char → Option (List Char)
  | [] => none
  | c :: rest =>
    if c == '-' then
      let afterSp := rest.dropWhile isSpaceC
      let run := afterSp.takeWhile Char.isDigit
      let after := afterSp.dropWhile Char.isDigit
      if !run.isEmpty && decide (run.length ≤ 3)
          && (match after.head? with
              | some h => isSpaceC h || h == '.'
              | none => false) then
        some run
      else searchEp6 rest
    else searchEp6 rest

/-- `re.search` of `集(\d{1,3})`. -/
def searchEp7 : List Char → Option (List Char)
  | [] => none
  | c :: rest =>
    if c == '集' && !(rest.takeWhile Char.isDigit).isEmpty then
      some ((rest.takeWhile Char.isDigit).take 3)
    else searchEp7 rest

/-! ## Title+season patterns (config section `patterns.title_season`)

All five are anchored with a caret, so `pattern.search` can only match at
the start of the string.  The lazy `(.+?)` tries title lengths 1, 2, ...
and for each length the rest of the pattern is attempted on the suffix;
the first length that succeeds wins.  `.` does not match a newline.  Each
suffix matcher returns capture group 2 together with the text after
`match.end()`. -/

/-- Suffix of pattern 1, `(?:\.\d{4})?\.(S\d+)` (the greedy optional year
group is tried first). -/
def ts1Suffix (s : List Char) : Option (List Char × List Char) :=
  let varA : Option (List Char × List Char) :=
    match s with
    | '.' :: t =>
      let ds := t.take 4
      if decide (ds.length = 4) && ds.all Char.isDigit then
        match t.drop 4 with
        | '.' :: 'S' :: u =>
          let run := u.takeWhile Char.isDigit
          if !run.isEmpty then some ('S' :: run, u.dropWhile Char.isDigit) else none
        | _ => none
      else none
    | _ => none
  match varA with
  | some r => some r
  | none =>
    match s with
    | '.' :: 'S' :: u =>
      let run := u.takeWhile Char.isDigit
      if !run.isEmpty then some ('S' :: run, u.dropWhile Char.isDigit) else none
    | _ => none

/-- Suffix of pattern 2, `\s+(?:Season|Saison)\s*(\d+)`: both whitespace
runs are forced to their full extent because neither an `S` nor a digit is
whitespace. -/
def ts2Suffix (s : List Char) : Option (List Char × List Char) :=
  let sp := s.takeWhile isSpaceC
  if sp.isEmpty then none
  else
    let t := s.dropWhile isSpaceC
    if isPrefixL "Season".toList t || isPrefixL "Saison".toList t then
      let u := (t.drop 6).dropWhile isSpaceC
      let run := u.takeWhile Char.isDigit
      if !run.isEmpty then some (run, u.dropWhile Char.isDigit) else none
    else none

/-- Suffix of pattern 3, `\s+第(\d+)季`. -/
def ts3Suffix (s : List Char) : Option (List Char × List Char) :=
  let sp := s.takeWhile isSpaceC
  if sp.isEmpty then none
  else
    match s.dropWhile isSpaceC with
    | '第' :: u =>
      let run := u.takeWhile Char.isDigit
      let after := u.dropWhile Char.isDigit
      if !run.isEmpty && after.head? == some '季' then some (run, after.drop 1)
      else none
    | _ => none

/-- Suffix of pattern 4, `[\s\.]*(?:第)?([一二三四五六七八九十]+)[季部]`:
the separator run is forced, the optional 第 is taken when present
(dropping it cannot recover, because 第 is not a class character). -/
def ts4Suffix (s : List Char) : Option (List Char × List Char) :=
  let t := s.dropWhile isSepSD
  let t2 := if t.head? == some '第' then t.drop 1 else t
  let run := t2.takeWhile cnDigit10
  let after := t2.dropWhile cnDigit10
  if !run.isEmpty && (after.head? == some '季' || after.head? == some '部') then
    some (run, after.drop 1)
  else none

/-- Suffix of pattern 5, `[\s\.-]+(\d{1,2})[季部]`. -/
def ts5Suffix (s : List Char) : Option (List Char × List Char) :=
  let sep := s.takeWhile isSepSDH
  if sep.isEmpty then none
  else
    let t := s.dropWhile isSepSDH
    let run := t.takeWhile Char.isDigit
    let after := t.dropWhile Char.isDigit
    if !run.isEmpty && decide (run.length ≤ 2)
        && (after.head? == some '季' || after.head? == some '部') then
      some (run, after.drop 1)
    else none

/-- Driver for the lazy anchored `(.+?)`: grow the title one character at
a time and attempt the given suffix matcher after it; group 1 must be
non-empty and cannot contain a newline. -/
def lazyTitle (suf : List Char → Option (List Char × List Char)) :
    List Char → List Char → Option (List Char × List Char × List Char)
  | _, [] => none
  | acc, c :: rest =>
    if c == '\n' then none
    else
      match suf rest with
      | some (g2, after) => some (acc ++ [c], g2, after)
      | none => lazyTitle suf (acc ++ [c]) rest

/-! ## Number parsing, title cleanup and the parser pipeline -/

/-- Decimal value of a digit string (`int(s)` on the digit-only strings
produced by the regex groups; any other string raises `ValueError`, which
the code turns into `None`). -/
def strToNat? (s : String) : Option Nat :=
  if !s.toList.isEmpty && s.toList.all Char.isDigit then
    some (s.toList.foldl (fun a c => a * 10 + (c.toNat - '0'.toNat)) 0)
  else none

/-- Python `s.lstrip` over the two letters `S` and `s`: every leading
occurrence of either is removed. -/
def lstripSs (s : String) : String :=
  String.mk (s.toList.dropWhile (fun c => c == 'S' || c == 's'))

/-- `TVShowProcessor._parse_season_number`: the lookup table holds the ten
single-character CJK numerals only, then `int` on the `S`-stripped
string. -/
def parse_season_number (s : String) : Option Nat :=
  let tbl : List (String × Nat) :=
    [("一", 1), ("二", 2), ("三", 3), ("四", 4), ("五", 5),
     ("六", 6), ("七", 7), ("八", 8), ("九", 9), ("十", 10)]
  match tbl.lookup s with
  | some v => some v
  | none => strToNat? (lstripSs s)

/-- `TVShowProcessor._parse_episode_number`: the lookup table covers 一
through 二十 including the compound forms, then `int` on the raw
string. -/
def parse_episode_number (s : String) : Option Nat :=
  let tbl : List (String × Nat) :=
    [("一", 1), ("二", 2), ("三", 3), ("四", 4), ("五", 5),
     ("六", 6), ("七", 7), ("八", 8), ("九", 9), ("十", 10),
     ("十一", 11), ("十二", 12), ("十三", 13), ("十四", 14),
     ("十五", 15), ("十六", 16), ("十七", 17), ("十八", 18),
     ("十九", 19), ("二十", 20)]
  match tbl.lookup s with
  | some v => some v
  | none => strToNat? s

/-- Fuelled worker computing the maximal CJK runs of a string in order,
modelling `re.findall` of `[一-鿿]+`. -/
def cjkRunsF : Nat → List Char → List (List Char)
  | 0, _ => []
  | fuel + 1, s =>
    match s with
    | [] => []
    | c :: rest =>
      if isCJKb c then (c :: rest.takeWhile isCJKb) :: cjkRunsF fuel (rest.dropWhile isCJKb)
      else cjkRunsF fuel rest

/-- Maximal CJK runs of a string. -/
def cjkRuns (s : List Char) : List (List Char) := cjkRunsF s.length s

/-- `TVShowProcessor._filter_chinese`: when any CJK character is present
the result is the CJK runs joined with single spaces; otherwise the text
is returned unchanged. -/
def filter_chinese (t : String) : String :=
  if t == "" then t
  else
    let runs := cjkRuns t.toList
    if runs.isEmpty then t else String.mk (List.intercalate [' '] runs)

/-- Record produced by the three extraction steps before the title filter
and the extension are applied. -/
structure Info0 where
  title : String
  season : Nat
  episode : Nat
  deriving Repr, DecidableEq

/-- Parsed record of `extract_info`. -/
structure Info where
  title : String
  season : Nat
  episode : Nat
  ext : String
  deriving Repr, DecidableEq

/-- `TVShowProcessor._extract_episode`: the first pattern whose search
finds a match decides the outcome; its group is parsed even when the
parse fails. -/
def extract_episode (s : String) : Option Nat :=
  let l := s.toList
  match searchEp1 l with
  | some g => parse_episode_number (String.mk g)
  | none =>
  match searchEp2 l with
  | some g => parse_episode_number (String.mk g)
  | none =>
  match searchEp3 l with
  | some g => parse_episode_number (String.mk g)
  | none =>
  match searchEp4 l with
  | some g => parse_episode_number (String.mk g)
  | none =>
  match searchEp5 l with
  | some g => parse_episode_number (String.mk g)
  | none =>
  match searchEp6 l with
  | some g => parse_episode_number (String.mk g)
  | none =>
  match searchEp7 l with
  | some g => parse_episode_number (String.mk g)
  | none => none

/-- `TVShowProcessor._extract_season_from_dir`: likewise, the first
directory-season pattern with a match decides, even when its group does
not parse. -/
def extract_season_from_dir (d : String) : Option Nat :=
  let l := d.toList
  match searchSnum l with
  | some g => parse_season_number (String.mk g)
  | none =>
  match searchSeasonNum l with
  | some g => parse_season_number (String.mk g)
  | none =>
  match searchDiJi l with
  | some g => parse_season_number (String.mk g)
  | none =>
  match searchSeasonCn l with
  | some g => parse_season_number (String.mk g)
  | none => none

/-- One iteration of the first loop of `_extract_info_from_dir`: a
matching pattern yields a record only when its season parses and the
stripped title is non-empty; otherwise the loop falls through to the next
pattern.  The episode of the produced record is the literal constant 1
from the source. -/
def tryDirPat (d : String) (srch : List Char → Option (List Char))
    (sub : List Char → List Char) : Option Info0 :=
  match srch d.toList with
  | none => none
  | some g =>
    match parse_season_number (String.mk g) with
    | none => none
    | some season =>
      let title := String.mk (trimL (sub d.toList))
      if title == "" then none else some ⟨title, season, 1⟩

/-- One iteration of the second loop of `_extract_info_from_dir` (parent
directory): the title is the raw immediate directory name and the episode
is again the constant 1. -/
def tryParentPat (dirname parent : String)
    (srch : List Char → Option (List Char)) : Option Info0 :=
  match srch parent.toList with
  | none => none
  | some g => (parse_season_number (String.mk g)).map (fun season => ⟨dirname, season, 1⟩)

/-- `TVShowProcessor._extract_info_from_dir`. -/
def extract_info_from_dir (dirname parent : String) : Option Info0 :=
  tryDirPat dirname searchSnum subSnumAll <|>
  tryDirPat dirname searchSeasonNum subSeasonNumAll <|>
  tryDirPat dirname searchDiJi subDiJiAll <|>
  tryDirPat dirname searchSeasonCn subSeasonCnAll <|>
  tryParentPat dirname parent searchSnum <|>
  tryParentPat dirname parent searchSeasonNum <|>
  tryParentPat dirname parent searchDiJi <|>
  tryParentPat dirname parent searchSeasonCn

/-- One iteration of the loop of `_extract_info_from_filename`: title is
group 1 with dots turned into spaces and stripped, season comes from the
season parser on group 2, episode from the remainder of the name after
the match; any failed condition falls through to the next pattern. -/
def tryTsPat (basename : String)
    (suf : List Char → Option (List Char × List Char)) : Option Info0 :=
  match lazyTitle suf [] basename.toList with
  | none => none
  | some (g1, g2, after) =>
    let title := String.mk (trimL (g1.map (fun c => if c == '.' then ' ' else c)))
    match parse_season_number (String.mk g2) with
    | none => none
    | some season =>
      if title == "" then none
      else
        match extract_episode (String.mk after) with
        | some ep => some ⟨title, season, ep⟩
        | none => none

/-- `TVShowProcessor._extract_info_from_filename`. -/
def extract_info_from_filename (basename : String) : Option Info0 :=
  tryTsPat basename ts1Suffix <|>
  tryTsPat basename ts2Suffix <|>
  tryTsPat basename ts3Suffix <|>
  tryTsPat basename ts4Suffix <|>
  tryTsPat basename ts5Suffix

/-! ## Smart fallback title cleanup (`_extract_title_from_filename`)

A chain of `re.sub` calls with the empty replacement; the `.*` tails stop
at a newline, so a match removes text up to the next newline and scanning
resumes there. -/

/-- Fuelled `re.sub` of `[\._\-]\[.*?\]`: the lazy body stops at the first
closing bracket, and cannot cross a newline. -/
def subBracketF : Nat → List Char → List Char
  | 0, s => s
  | fuel + 1, s =>
    match s with
    | [] => []
    | c :: rest =>
      if isSepTH c && rest.head? == some '[' then
        let body := rest.drop 1
        let pre := body.takeWhile (fun x => !(x == ']') && !(x == '\n'))
        match body.drop pre.length with
        | ']' :: tail => subBracketF fuel tail
        | _ => c :: subBracketF fuel rest
      else c :: subBracketF fuel rest

/-- Fuelled `re.sub` of `[\._\-]\(.*?\)`. -/
def subParenF : Nat → List Char → List Char
  | 0, s => s
  | fuel + 1, s =>
    match s with
    | [] => []
    | c :: rest =>
      if isSepTH c && rest.head? == some '(' then
        let body := rest.drop 1
        let pre := body.takeWhile (fun x => !(x == ')') && !(x == '\n'))
        match body.drop pre.length with
        | ')' :: tail => subParenF fuel tail
        | _ => c :: subParenF fuel rest
      else c :: subParenF fuel rest

/-- Fuelled `re.sub` of `[\._\-]HD.*`. -/
def subHDF : Nat → List Char → List Char
  | 0, s => s
  | fuel + 1, s =>
    match s with
    | [] => []
    | c :: rest =>
      if isSepTH c && isPrefixL "HD".toList rest then
        subHDF fuel ((rest.drop 2).dropWhile (fun x => !(x == '\n')))
      else c :: subHDF fuel rest

/-- Fuelled `re.sub` of `[\._\-]S\d+.*`. -/
def subSTailF : Nat → List Char → List Char
  | 0, s => s
  | fuel + 1, s =>
    match s with
    | [] => []
    | c :: rest =>
      match rest with
      | 'S' :: u =>
        if isSepTH c && !(u.takeWhile Char.isDigit).isEmpty then
          subSTailF fuel ((u.dropWhile Char.isDigit).dropWhile (fun x => !(x == '\n')))
        else c :: subSTailF fuel rest
      | _ => c :: subSTailF fuel rest

/-- Fuelled `re.sub` of `[\._\-]E\d+.*`. -/
def subETailF : Nat → List Char → List Char
  | 0, s => s
  | fuel + 1, s =>
    match s with
    | [] => []
    | c :: rest =>
      match rest with
      | 'E' :: u =>
        if isSepTH c && !(u.takeWhile Char.isDigit).isEmpty then
          subETailF fuel ((u.dropWhile Char.isDigit).dropWhile (fun x => !(x == '\n')))
        else c :: subETailF fuel rest
      | _ => c :: subETailF fuel rest

/-- Fuelled `re.sub` of `[\._\-]\d{4}.*`: exactly four digits are
required, any further digits are consumed by the tail. -/
def subYearTailF : Nat → List Char → List Char
  | 0, s => s
  | fuel + 1, s =>
    match s with
    | [] => []
    | c :: rest =>
      if isSepTH c && decide ((rest.take 4).length = 4) && (rest.take 4).all Char.isDigit then
        subYearTailF fuel ((rest.drop 4).dropWhile (fun x => !(x == '\n')))
      else c :: subYearTailF fuel rest

/-- `TVShowProcessor._extract_title_from_filename`. -/
def extract_title_from_filename (basename : String) : Option String :=
  let t := subBracketF basename.toList.length basename.toList
  let t := subParenF t.length t
  let t := subHDF t.length t
  let t := subSTailF t.length t
  let t := subETailF t.length t
  let t := subYearTailF t.length t
  let t := trimL (t.map (fun c => if c == '.' then ' ' else c))
  if t.isEmpty then none else some (String.mk t)

/-- `TVShowProcessor._extract_mixed_info`. -/
def extract_mixed_info (dirname parent basename : String) : Option Info0 :=
  let seasonOpt :=
    match extract_season_from_dir dirname with
    | none => extract_season_from_dir parent
    | some s => some s
  match seasonOpt with
  | none => none
  | some season =>
    match extract_title_from_filename basename with
    | none => none
    | some title =>
      match extract_episode basename with
      | none => none
      | some ep => some ⟨title, season, ep⟩

/-! ## Paths and `os.path` helpers -/

/-- A filesystem path as its list of components; `os.path.join` is list
append and `os.path.dirname` drops the last component. -/
abbrev FilePath0 := List String

/-- `os.path.basename` on a component path. -/
def pathBasename (p : FilePath0) : String := p.getLastD ""

/-- `os.path.dirname` on a component path. -/
def pathDirname (p : FilePath0) : FilePath0 := p.dropLast

/-- `os.path.splitext` on a basename: split at the rightmost dot that has
some earlier non-dot character; otherwise the extension is empty. -/
def splitextPair (s : String) : String × String :=
  let l := s.toList
  let idx := ((List.range l.length).filter
    (fun i => l.get? i == some '.' && (l.take i).any (fun c => !(c == '.')))).getLast?
  match idx with
  | some i => (String.mk (l.take i), String.mk (l.drop i))
  | none => (s, "")

/-- `TVShowProcessor.extract_info`: the ordered fallback chain over the
directory step, the filename step and the mixed step; on success the
title is passed through `_filter_chinese` and the original extension is
attached. -/
def extract_info (fp : FilePath0) : Option Info :=
  let filename := pathBasename fp
  let base := (splitextPair filename).1
  let ext := (splitextPair filename).2
  let dirname := pathBasename (pathDirname fp)
  let parent := pathBasename (pathDirname (pathDirname fp))
  match extract_info_from_dir dirname parent with
  | some r => some ⟨filter_chinese r.title, r.season, r.episode, ext⟩
  | none =>
    match extract_info_from_filename base with
    | some r => some ⟨filter_chinese r.title, r.season, r.episode, ext⟩
    | none =>
      match extract_mixed_info dirname parent base with
      | some r => some ⟨filter_chinese r.title, r.season, r.episode, ext⟩
      | none => none

/-! ## Filesystem model

Regular files are an association table from paths to file data (an
identity and a size in bytes); directories are a list of paths.  This is
the state `os.walk`, `os.makedirs`, `shutil.move`, `shutil.copy2` and
`os.rmdir` operate on. -/

/-- Data of a regular file: an identity for its content and its size in
bytes (`os.path.getsize`). -/
structure FData where
  ident : Nat
  size : Nat
  deriving Repr, DecidableEq

/-- The filesystem: regular files with their data, and existing
directories. -/
structure FS where
  files : List (FilePath0 × FData)
  dirs : List FilePath0
  deriving Repr, DecidableEq

/-- First-match association lookup. -/
def assocLookup : List (FilePath0 × FData) → FilePath0 → Option FData
  | [], _ => none
  | e :: t, p => if e.1 = p then some e.2 else assocLookup t p

/-- Content of the regular file at `p`, when one exists. -/
def FS.lookup (fs : FS) (p : FilePath0) : Option FData :=
  assocLookup fs.files p

/-- `os.path.isfile`. -/
def FS.isFile (fs : FS) (p : FilePath0) : Bool :=
  (fs.lookup p).isSome

/-- `os.path.isdir`. -/
def FS.isDir (fs : FS) (p : FilePath0) : Bool :=
  fs.dirs.any (fun q => decide (q = p))

/-- Remove the regular file at `p`. -/
def FS.removeFile (fs : FS) (p : FilePath0) : FS :=
  { fs with files := fs.files.filter (fun e => decide (e.1 ≠ p)) }

/-- Create or replace the regular file at `p`. -/
def FS.setFile (fs : FS) (p : FilePath0) (v : FData) : FS :=
  { fs with files := fs.files.filter (fun e => decide (e.1 ≠ p)) ++ [(p, v)] }

/-- The non-empty prefixes of a path. -/
def prefixesOf (p : FilePath0) : List FilePath0 :=
  (List.range p.length).map (fun i => p.take (i + 1))

/-- `os.makedirs(p, exist_ok=True)`: every missing prefix directory is
created. -/
def FS.makedirs (fs : FS) (p : FilePath0) : FS :=
  { fs with
    dirs := (prefixesOf p).foldl
      (fun ds q => if ds.any (fun r => decide (r = q)) then ds else ds ++ [q]) fs.dirs }

/-- `shutil.move` on a present source file: an existing destination
directory receives the file under its basename, any existing destination
file is silently replaced (POSIX `os.rename`, or the `copy2` plus unlink
fallback).  A missing source raises instead, which callers model
separately; directory sources do not occur in the runs modelled here. -/
def shutilMoveT (fs : FS) (src dst : FilePath0) : FS :=
  match fs.lookup src with
  | none => fs
  | some v =>
    let realDst := if fs.isDir dst then dst ++ [pathBasename src] else dst
    (fs.removeFile src).setFile realDst v

/-- `shutil.copy2` of a present source file to an explicit destination
path, replacing any existing file there. -/
def FS.copyFile (fs : FS) (src dst : FilePath0) : FS :=
  match fs.lookup src with
  | none => fs
  | some v => fs.setFile dst v

/-- Whether a directory has any entry strictly below it (`os.listdir`
non-empty). -/
def FS.dirHasChild (fs : FS) (d : FilePath0) : Bool :=
  fs.files.any (fun e => d.isPrefixOf e.1 && decide (d.length < e.1.length)) ||
  fs.dirs.any (fun q => d.isPrefixOf q && decide (d.length < q.length))

/-- `os.rmdir` guarded by the existence and emptiness test of
`_process_with_fallback`. -/
def FS.rmdirIfEmpty (fs : FS) (d : FilePath0) : FS :=
  if fs.isDir d && !fs.dirHasChild d then
    { fs with dirs := fs.dirs.filter (fun q => decide (q ≠ d)) }
  else fs

/-! ## Configuration and run state -/

/-- The configuration fields the modelled code paths read
(`paths` and `rules` sections).  The pattern lists and the naming
templates are the ones of `DEFAULT_CONFIG`, embedded in the pattern
functions and in `build_output_path`. -/
structure Config where
  tvShows : FilePath0
  backup : Option FilePath0
  output : FilePath0
  extensions : List String
  metadataExtensions : List String
  minSizeMB : Nat
  recursive : Bool
  excludeKeywords : List String
  excludeDirs : List String
  retryOnError : Bool
  parallelProcessing : Bool
  maxWorkers : Nat
  deriving Repr, DecidableEq

/-- The per-run counters of the processor. -/
structure Counters where
  processed : Nat
  moved : Nat
  skipped : Nat
  errors : Nat
  backups : Nat
  parallelSuccess : Nat
  parallelErrors : Nat
  deriving Repr, DecidableEq

/-- Counters all zero, as set in `__init__`. -/
def Counters.zero : Counters := ⟨0, 0, 0, 0, 0, 0, 0⟩

/-- One entry of the undo log, as written by `_record_undo_action`. -/
structure Entry where
  timestamp : Nat
  original : FilePath0
  newPath : FilePath0
  action : String
  deriving Repr, DecidableEq

/-- Full state of a run: the filesystem, the undo-log file content, the
checkpoint file content, the counters, a clock for timestamps, the index
of the next `shutil.move` call for the failure oracle, and the ghost
trace of all `shutil.move` calls issued so far. -/
structure St where
  fs : FS
  history : List Entry
  checkpoint : List FilePath0
  counters : Counters
  clock : Nat
  attempts : Nat
  moveCalls : List (FilePath0 × FilePath0)
  deriving Repr, DecidableEq

/-- Boolean membership of a path in a path list. -/
def memB (p : FilePath0) (l : List FilePath0) : Bool :=
  l.any (fun q => decide (q = p))

/-- Set insertion used for `processed.add`: append when absent. -/
def insertPath (p : FilePath0) (l : List FilePath0) : List FilePath0 :=
  if memB p l then l else l ++ [p]

/-- One `shutil.move` call: the ghost trace and the attempt index always
advance; the move succeeds when the source exists and the failure oracle
allows this attempt, otherwise the call raises. -/
def attemptMove (env : Nat → Bool) (st : St) (src dst : FilePath0) : St × Bool :=
  let i := st.attempts
  let st1 := { st with attempts := i + 1, moveCalls := st.moveCalls ++ [(src, dst)] }
  if st.fs.isFile src && env i then
    ({ st1 with fs := shutilMoveT st1.fs src dst }, true)
  else (st1, false)

/-- `TVShowProcessor._record_undo_action`: read the log, append one entry
stamped with the current clock, write it back. -/
def recordUndo (st : St) (original newPath : FilePath0) : St :=
  { st with
    history := st.history ++ [⟨st.clock, original, newPath, "move"⟩],
    clock := st.clock + 1 }

/-- `TVShowProcessor._backup_file`: no backup directory means `False`;
otherwise the directory is created and the file copied under its
basename.  The copy itself is modelled as succeeding (backup failure is
logged only and blocks nothing). -/
def backupFile (cfg : Config) (st : St) (src : FilePath0) : St × Bool :=
  match cfg.backup with
  | none => (st, false)
  | some bdir =>
    let fs1 := st.fs.makedirs bdir
    match fs1.lookup src with
    | none => ({ st with fs := fs1 }, false)
    | some v => ({ st with fs := fs1.setFile (bdir ++ [pathBasename src]) v }, true)

/-! ## Path planning and the file mover -/

/-- Python two-digit zero-padded decimal formatting for the naturals used as season and episode
numbers. -/
def pad2 (n : Nat) : String :=
  if n < 10 then "0" ++ toString n else toString n

/-- `TVShowProcessor._build_output_path` with the naming templates of
`DEFAULT_CONFIG`: the directory template `title slash Season NN` and the
file template `title.SNN.ENN` plus the extension, joined under the output
root.  The slash of the directory template splits into a path
component. -/
def build_output_path (cfg : Config) (info : Info) : FilePath0 :=
  cfg.output ++ [info.title, "Season " ++ pad2 info.season,
    info.title ++ ".S" ++ pad2 info.season ++ ".E" ++ pad2 info.episode ++ info.ext]

/-- Sidecar path: the full path with the same directory and the base name
of `p` (extension stripped) plus the metadata extension. -/
def metaPath (p : FilePath0) (ext : String) : FilePath0 :=
  pathDirname p ++ [(splitextPair (pathBasename p)).1 ++ ext]

/-- The metadata loop at the end of `_move_file`: for each configured
extension, an existing sidecar is (in execute mode) moved with one
`shutil.move` call whose failure is only logged, and recorded in the undo
log on success; in preview mode the loop prints only.  A sidecar path
that exists as a directory would be moved by the real code; such entries
do not occur in the undo logs this program writes, and the model treats
the move attempt as failing there. -/
def processSidecars (env : Nat → Bool) (cfg : Config) (preview : Bool)
    (st : St) (src dst : FilePath0) : St :=
  cfg.metadataExtensions.foldl
    (fun st ext =>
      let oldm := metaPath src ext
      let newm := metaPath dst ext
      if st.fs.isFile oldm || st.fs.isDir oldm then
        if preview then st
        else
          let r := attemptMove env st oldm newm
          if r.2 then recordUndo r.1 oldm newm else r.1
      else st)
    st

/-- `TVShowProcessor._move_file` (with `_process_with_fallback` inlined
for the failure branch).  The destination parent directory is created
before the preview test, exactly as in the source.  The Boolean is false
when the method raises `RuntimeError`. -/
def moveFileEx (env : Nat → Bool) (cfg : Config) (st : St) (src : FilePath0)
    (info : Info) (preview : Bool) : St × Bool :=
  let dst := build_output_path cfg info
  let st := { st with fs := st.fs.makedirs (pathDirname dst) }
  if preview then (st, true)
  else
    let rb := backupFile cfg st src
    let st := if rb.2 then
        { rb.1 with counters := { rb.1.counters with backups := rb.1.counters.backups + 1 } }
      else rb.1
    let r1 := attemptMove env st src dst
    if r1.2 then
      let st := recordUndo r1.1 src dst
      let st := { st with counters := { st.counters with moved := st.counters.moved + 1 } }
      (processSidecars env cfg false st src dst, true)
    else
      if cfg.retryOnError then
        let st := { r1.1 with fs := r1.1.fs.makedirs (pathDirname dst ++ [".temp"]) }
        let tempPath := pathDirname dst ++ [".temp", pathBasename src]
        let r2 := attemptMove env st src tempPath
        if r2.2 then
          let r3 := attemptMove env r2.1 tempPath dst
          if r3.2 then
            let st := { r3.1 with fs := r3.1.fs.rmdirIfEmpty (pathDirname dst ++ [".temp"]) }
            let st := recordUndo st src dst
            let st := { st with counters := { st.counters with moved := st.counters.moved + 1 } }
            (processSidecars env cfg false st src dst, true)
          else (r3.1, false)
        else (r2.1, false)
      else (r1.1, false)

/-! ## Run coordinator -/

/-- `TVShowProcessor._should_skip_dir`: case-insensitive substring test of
every configured excluded directory name against the basename of the
directory. -/
def shouldSkipDir (cfg : Config) (dir : FilePath0) : Bool :=
  let dn := lowerStr (pathBasename dir)
  cfg.excludeDirs.any (fun x => isInfixL (lowerStr x).toList dn.toList)

/-- `TVShowProcessor._should_skip`: substring test of every configured
keyword against the lowercased basename of the file. -/
def shouldSkip (cfg : Config) (fp : FilePath0) : Bool :=
  let fn := lowerStr (pathBasename fp)
  cfg.excludeKeywords.any (fun kw => isInfixL kw.toList fn.toList)

/-- `TVShowProcessor._is_valid_video`: extension allow-list plus minimum
size (`size / 2^20 >= min_size_mb`, stated over bytes). -/
def isValidVideo (cfg : Config) (e : FilePath0 × FData) : Bool :=
  cfg.extensions.contains (lowerStr (splitextPair (pathBasename e.1)).2) &&
  (if 0 < cfg.minSizeMB then decide (cfg.minSizeMB * 1048576 ≤ e.2.size) else true)

/-- The checkpoint-independent part of the selection test of
`_collect_files` for one file entry: the file lies below the source root
(`os.walk`), the non-recursive mode only accepts the root itself, the
containing directory is not excluded (`os.walk` does not prune, so only
the immediate directory is tested), the file is a valid video and not
keyword-skipped. -/
def collectBase (cfg : Config) (e : FilePath0 × FData) : Bool :=
  cfg.tvShows.isPrefixOf e.1 && decide (cfg.tvShows.length < e.1.length) &&
  (cfg.recursive || decide (pathDirname e.1 = cfg.tvShows)) &&
  !(shouldSkipDir cfg (pathDirname e.1)) &&
  isValidVideo cfg e &&
  !(shouldSkip cfg e.1)

/-- Full selection predicate of `_collect_files`: the base test plus the
checkpoint exclusion (the source evaluates the membership test between
the validity and the keyword test; the conjunction is pure, so the order
is irrelevant). -/
def collectPred (cfg : Config) (processed : List FilePath0)
    (e : FilePath0 × FData) : Bool :=
  collectBase cfg e && !(memB e.1 processed)

/-- `TVShowProcessor._collect_files`: the file table stands in for the
`os.walk` enumeration. -/
def collectFiles (cfg : Config) (fs : FS) (processed : List FilePath0) : List FilePath0 :=
  (fs.files.filter (collectPred cfg processed)).map (fun e => e.1)

/-- `TVShowProcessor._process_single_file`: count, parse, then either
skip (unresolved) or move. -/
def processSingleFile (env : Nat → Bool) (cfg : Config) (preview : Bool)
    (st : St) (fp : FilePath0) : St × Bool :=
  let st := { st with counters := { st.counters with processed := st.counters.processed + 1 } }
  match extract_info fp with
  | none =>
    ({ st with counters := { st.counters with skipped := st.counters.skipped + 1 } }, true)
  | some info => moveFileEx env cfg st fp info preview

/-- One iteration of the loop of `_process_files_sequential`: on normal
return the file is added to the processed set and the checkpoint file is
rewritten; an exception is caught, the error counter incremented, and the
checkpoint left as it was. -/
def seqStep (env : Nat → Bool) (cfg : Config) (preview : Bool)
    (st : St) (fp : FilePath0) : St :=
  let r := processSingleFile env cfg preview st fp
  if r.2 then { r.1 with checkpoint := insertPath fp r.1.checkpoint }
  else { r.1 with counters := { r.1.counters with errors := r.1.counters.errors + 1 } }

/-- `TVShowProcessor._process_files_sequential`. -/
def runSeq (env : Nat → Bool) (cfg : Config) (preview : Bool)
    (st : St) (files : List FilePath0) : St :=
  files.foldl (seqStep env cfg preview) st

/-- The sequential branch of `TVShowProcessor.process`: load the
checkpoint, collect the files, process them in order.  (The optional
thread-pool branch runs the same per-file logic concurrently and is not
modelled; preview runs always take this branch.) -/
def processRun (env : Nat → Bool) (cfg : Config) (preview : Bool) (st : St) : St :=
  runSeq env cfg preview st (collectFiles cfg st.fs st.checkpoint)

/-! ## Undo -/

/-- One iteration of the loop of `undo_last_actions`: entries whose
`new_path` still exists are moved back to `original` and counted, the
others are reported and skipped.  A `new_path` that is a directory would
be moved by the real code; the undo logs this program writes only record
file moves, so the model counts such an entry without a file move. -/
def undoStep (acc : FS × Nat) (e : Entry) : FS × Nat :=
  if acc.1.isFile e.newPath then (shutilMoveT acc.1 e.newPath e.original, acc.2 + 1)
  else if acc.1.isDir e.newPath then (acc.1, acc.2 + 1)
  else acc

/-- `TVShowProcessor.undo_last_actions`: reverse the most recent `count`
entries in reverse chronological order, then rewrite the log without
them.  (For `count = 0` the Python slice `history[:-0]` is empty, which
the conditional reproduces.)  Returns the filesystem, the rewritten log
and the success count. -/
def undoLastActions (steps : Nat) (fs : FS) (history : List Entry) :
    FS × List Entry × Nat :=
  let count := min steps history.length
  let targets := history.drop (history.length - count)
  let r := (targets.reverse).foldl undoStep (fs, 0)
  let remaining := if count = 0 then [] else history.take (history.length - count)
  (r.1, remaining, r.2)

/-! ## The default configuration (`ConfigManager.DEFAULT_CONFIG`) -/

/-- The `paths` and `rules` values of the generated default
configuration. -/
def cfgDefault : Config where
  tvShows := ["volume1", "电视剧待整理"]
  backup := some ["volume1", "电视剧待整理", "备份"]
  output := ["volume1", "电视剧整理完成"]
  extensions := [".mp4", ".mkv", ".avi", ".ts", ".mov", ".flv", ".wmv"]
  metadataExtensions := [".nfo", ".srt", ".ass", ".ssa", ".vsmeta", ".jpg", ".png"]
  minSizeMB := 50
  recursive := true
  excludeKeywords := ["sample", "trailer", "temp", "预告"]
  excludeDirs := ["@eaDir", "extras", "sample", "temp"]
  retryOnError := true
  parallelProcessing := true
  maxWorkers := 4

/-- The default rules with short test paths, as an operator would set the
three directories. -/
def cfgTest : Config :=
  { cfgDefault with tvShows := ["src"], backup := some ["bak"], output := ["out"] }

/-! ## Abstract forward move chains (for the undo analysis) -/

/-- Apply a list of `shutil.move` operations in order. -/
def applyMovesT (fs : FS) (ops : List (FilePath0 × FilePath0)) : FS :=
  ops.foldl (fun fs m => shutilMoveT fs m.1 m.2) fs

/-- Step-wise success conditions for a chain of moves: at each step the
source is a present regular file and the destination neither exists as a
file nor as a directory — exactly the situation of a recorded successful
primary move whose moved file is still at its new path. -/
def movesOKb : FS → List (FilePath0 × FilePath0) → Bool
  | _, [] => true
  | fs, (s, d) :: rest =>
    fs.isFile s && !(fs.isDir s) && !(fs.isFile d) && !(fs.isDir d) &&
    movesOKb (shutilMoveT fs s d) rest

/-! ## Concrete fixtures used by the closed theorems -/

/-- The CJK numeral strings 1 through 20 of the episode lookup table. -/
def cnNumeral (k : Nat) : String :=
  [("", 0), ("一", 1), ("二", 2), ("三", 3), ("四", 4), ("五", 5),
   ("六", 6), ("七", 7), ("八", 8), ("九", 9), ("十", 10),
   ("十一", 11), ("十二", 12), ("十三", 13), ("十四", 14),
   ("十五", 15), ("十六", 16), ("十七", 17), ("十八", 18),
   ("十九", 19), ("二十", 20)].getD k ("", 0) |>.1

/-- Source path of the first test file. -/
def srcA : FilePath0 := ["src", "Show S01", "a.mkv"]

/-- Source path of the second test file. -/
def srcB : FilePath0 := ["src", "Show S01", "b.mkv"]

/-- The planned destination shared by both test files: the directory step
parses the season from the directory name `Show S01` and fixes episode 1,
so title, season and episode coincide. -/
def dstMain : FilePath0 := ["out", "Show", "Season 01", "Show.S01.E01.mkv"]

/-- The staging path used by `_process_with_fallback` for the first test
file. -/
def tempA : FilePath0 := ["out", "Show", "Season 01", ".temp", "a.mkv"]

/-- A source tree holding one 200 MiB video file. -/
def fsOne : FS :=
  { files := [(srcA, ⟨1, 209715200⟩)],
    dirs := [["src"], ["src", "Show S01"]] }

/-- Fresh run state over `fsOne`: empty undo log, empty checkpoint. -/
def stOne : St := ⟨fsOne, [], [], Counters.zero, 0, 0, []⟩

/-- A source tree holding two 200 MiB video files that both resolve to
`dstMain`. -/
def fsTwo : FS :=
  { files := [(srcA, ⟨1, 209715200⟩), (srcB, ⟨2, 209715200⟩)],
    dirs := [["src"], ["src", "Show S01"]] }

/-- Fresh run state over `fsTwo`. -/
def stTwo : St := ⟨fsTwo, [], [], Counters.zero, 0, 0, []⟩

/-! # Lemmas and theorems -/

/-! ## Association-table and move characterizations -/

theorem assocLookup_append (l1 l2 : List (FilePath0 × FData)) (q : FilePath0) :
    assocLookup (l1 ++ l2) q =
      match assocLookup l1 q with
      | some v => some v
      | none => assocLookup l2 q := by
  induction l1 with
  | nil => simp [assocLookup]
  | cons e t ih =>
    by_cases h : e.1 = q
    · simp [assocLookup, h]
    · simp [assocLookup, h, ih]

theorem assocLookup_filter (l : List (FilePath0 × FData)) (p q : FilePath0) :
    assocLookup (l.filter (fun e => decide (e.1 ≠ p))) q =
      if q = p then none else assocLookup l q := by
  induction l with
  | nil => simp [assocLookup]
  | cons e t ih =>
    rw [List.filter_cons]
    by_cases hep : e.1 = p
    · rw [if_neg (by simp [hep]), ih]
      by_cases hqp : q = p
      · rw [if_pos hqp, if_pos hqp]
      · rw [if_neg hqp, if_neg hqp]
        show assocLookup t q = assocLookup (e :: t) q
        rw [show assocLookup (e :: t) q = if e.1 = q then some e.2 else assocLookup t q from rfl,
          if_neg (fun (h : e.1 = q) => hqp (h ▸ hep))]
    · rw [if_pos (by simp [hep])]
      by_cases heq : e.1 = q
      · have hqp : ¬q = p := fun h => hep (heq.trans h)
        simp [assocLookup, heq, hqp]
      · simp only [decide_not] at ih
        simp [assocLookup, heq, ih]

theorem setFile_lookup (fs : FS) (p : FilePath0) (v : FData) (q : FilePath0) :
    (fs.setFile p v).lookup q = if q = p then some v else fs.lookup q := by
  show assocLookup (fs.files.filter (fun e => decide (e.1 ≠ p)) ++ [(p, v)]) q = _
  rw [assocLookup_append, assocLookup_filter]
  by_cases hqp : q = p
  · simp [hqp, assocLookup]
  · rw [if_neg hqp, if_neg hqp]
    cases h : assocLookup fs.files q <;>
      simp [FS.lookup, h, assocLookup, show ¬p = q from fun hpq => hqp hpq.symm]

theorem removeFile_lookup (fs : FS) (p q : FilePath0) :
    (fs.removeFile p).lookup q = if q = p then none else fs.lookup q := by
  show assocLookup (fs.files.filter (fun e => decide (e.1 ≠ p))) q = _
  rw [assocLookup_filter]
  rfl

theorem setFile_dirs (fs : FS) (p : FilePath0) (v : FData) :
    (fs.setFile p v).dirs = fs.dirs := rfl

theorem removeFile_dirs (fs : FS) (p : FilePath0) :
    (fs.removeFile p).dirs = fs.dirs := rfl

theorem isDir_of_dirs_eq (fs1 fs2 : FS) (h : fs1.dirs = fs2.dirs) (p : FilePath0) :
    fs1.isDir p = fs2.isDir p := by
  simp [FS.isDir, h]

theorem shutilMoveT_dirs (fs : FS) (s d : FilePath0) :
    (shutilMoveT fs s d).dirs = fs.dirs := by
  unfold shutilMoveT
  cases fs.lookup s <;> simp [setFile_dirs, removeFile_dirs]

theorem shutilMoveT_lookup (fs : FS) (s d : FilePath0) (v : FData)
    (hs : fs.lookup s = some v) (hd : fs.isDir d = false) (q : FilePath0) :
    (shutilMoveT fs s d).lookup q =
      if q = d then some v else if q = s then none else fs.lookup q := by
  unfold shutilMoveT
  rw [hs]
  simp only [hd, Bool.false_eq_true, if_false]
  rw [setFile_lookup]
  by_cases hqd : q = d
  · simp [hqd]
  · simp [hqd]
    rw [show (fs.removeFile s).lookup q = _ from removeFile_lookup fs s q]

theorem lookup_none_of_isFile_false (fs : FS) (p : FilePath0)
    (h : fs.isFile p = false) : fs.lookup p = none := by
  cases hl : fs.lookup p with
  | none => rfl
  | some v => rw [FS.isFile, hl] at h; simp at h

theorem undo_fold_restores (history : List Entry) :
    ∀ (fs : FS) (k : Nat) (ops : List (FilePath0 × FilePath0)),
      movesOKb fs ops = true →
      history.map (fun e => (e.original, e.newPath)) = ops →
      ((history.reverse).foldl undoStep (applyMovesT fs ops, k)).2 = k + ops.length
      ∧ (∀ q, ((history.reverse).foldl undoStep (applyMovesT fs ops, k)).1.lookup q
          = fs.lookup q)
      ∧ ((history.reverse).foldl undoStep (applyMovesT fs ops, k)).1.dirs = fs.dirs := by
  induction history with
  | nil =>
    intro fs k ops hok hmatch
    have hops : ops = [] := by simpa using hmatch.symm
    subst hops
    simp [applyMovesT]
  | cons e hrest ih =>
    intro fs k ops hok hmatch
    cases ops with
    | nil => simp at hmatch
    | cons op rest =>
      rw [List.map_cons] at hmatch
      injection hmatch with h1 h2
      subst h1
      subst h2
      simp only [movesOKb, Bool.and_eq_true, Bool.not_eq_true'] at hok
      obtain ⟨⟨⟨⟨hfs, hds⟩, hfd⟩, hdd⟩, hrestok⟩ := hok
      rw [FS.isFile] at hfs
      obtain ⟨v, hv⟩ := Option.isSome_iff_exists.mp hfs
      have happly : applyMovesT fs ((e.original, e.newPath) :: List.map
          (fun e => (e.original, e.newPath)) hrest)
          = applyMovesT (shutilMoveT fs e.original e.newPath)
            (List.map (fun e => (e.original, e.newPath)) hrest) := rfl
      rw [happly, List.reverse_cons, List.foldl_append]
      obtain ⟨ihc, ihl, ihd⟩ :=
        ih (shutilMoveT fs e.original e.newPath) k
          (List.map (fun e => (e.original, e.newPath)) hrest) hrestok rfl
      set inner := (hrest.reverse).foldl undoStep
        (applyMovesT (shutilMoveT fs e.original e.newPath)
          (List.map (fun e => (e.original, e.newPath)) hrest), k) with hinner
      have hmv : ∀ q, (shutilMoveT fs e.original e.newPath).lookup q =
          if q = e.newPath then some v else if q = e.original then none
          else fs.lookup q := shutilMoveT_lookup fs e.original e.newPath v hv hdd
      have hlookd : inner.1.lookup e.newPath = some v := by
        rw [ihl e.newPath, hmv e.newPath, if_pos rfl]
      have hfile : inner.1.isFile e.newPath = true := by
        rw [FS.isFile, hlookd]; rfl
      have hstep : List.foldl undoStep inner [e] =
          (shutilMoveT inner.1 e.newPath e.original, inner.2 + 1) := by
        show undoStep inner e = _
        rw [undoStep, hfile]
        simp
      rw [hstep]
      have hdirs_inner : inner.1.dirs = fs.dirs := by
        rw [ihd, shutilMoveT_dirs]
      have hsdir : inner.1.isDir e.original = false := by
        rw [isDir_of_dirs_eq inner.1 fs hdirs_inner]
        exact hds
      have hback : ∀ q, (shutilMoveT inner.1 e.newPath e.original).lookup q =
          if q = e.original then some v else if q = e.newPath then none
          else inner.1.lookup q := shutilMoveT_lookup inner.1 e.newPath e.original v hlookd hsdir
      refine ⟨?_, ?_, ?_⟩
      · simp [ihc]
        omega
      · intro q
        rw [hback q]
        by_cases hqs : q = e.original
        · rw [if_pos hqs, hqs, hv]
        · rw [if_neg hqs]
          by_cases hqd : q = e.newPath
          · rw [if_pos hqd, hqd, lookup_none_of_isFile_false fs e.newPath hfd]
          · rw [if_neg hqd, ihl q, hmv q, if_neg hqd, if_neg hqs]
      · rw [shutilMoveT_dirs, hdirs_inner]

/-- C3: for every run consisting of N successful moves (each source
present, each destination fresh at its move time), each recorded in the
undo log in order and each moved file still present at its new path,
`undo(N)` moves every new path back to its original path in reverse
chronological order — the resulting filesystem has exactly the original
file table — and it leaves the undo log empty, with all N entries
reported as undone. -/
theorem c3_undo_correct (fs : FS) (ops : List (FilePath0 × FilePath0))
    (history : List Entry)
    (hok : movesOKb fs ops = true)
    (hmatch : history.map (fun e => (e.original, e.newPath)) = ops) :
    (undoLastActions ops.length (applyMovesT fs ops) history).2.1 = []
    ∧ (undoLastActions ops.length (applyMovesT fs ops) history).2.2 = ops.length
    ∧ ∀ q, (undoLastActions ops.length (applyMovesT fs ops) history).1.lookup q
        = fs.lookup q := by
  have hlen : history.length = ops.length := by
    rw [← hmatch, List.length_map]
  obtain ⟨hc, hl, hd⟩ := undo_fold_restores history fs 0 ops hok hmatch
  have hrepr : undoLastActions ops.length (applyMovesT fs ops) history =
      (((history.reverse).foldl undoStep (applyMovesT fs ops, 0)).1, [],
        ((history.reverse).foldl undoStep (applyMovesT fs ops, 0)).2) := by
    unfold undoLastActions
    rw [hlen, min_self]
    simp only [Nat.sub_self, List.drop_zero, List.take_zero, ite_self]
  rw [hrepr]
  exact ⟨rfl, by simpa using hc, hl⟩

/-- Witness for C3: a two-step chain (the second move relocates the first
destination) is undone completely. -/
theorem c3_undo_correct_witness :
    movesOKb fsOne [(srcA, ["x"]), (["x"], ["y"])] = true
    ∧ ((undoLastActions 2 (applyMovesT fsOne [(srcA, ["x"]), (["x"], ["y"])])
          [⟨0, srcA, ["x"], "move"⟩, ⟨1, ["x"], ["y"], "move"⟩]).2.1 = []
      ∧ (undoLastActions 2 (applyMovesT fsOne [(srcA, ["x"]), (["x"], ["y"])])
          [⟨0, srcA, ["x"], "move"⟩, ⟨1, ["x"], ["y"], "move"⟩]).2.2 = 2
      ∧ ∀ q, (undoLastActions 2 (applyMovesT fsOne [(srcA, ["x"]), (["x"], ["y"])])
          [⟨0, srcA, ["x"], "move"⟩, ⟨1, ["x"], ["y"], "move"⟩]).1.lookup q
          = fsOne.lookup q) :=
  ⟨by decide,
    c3_undo_correct fsOne [(srcA, ["x"]), (["x"], ["y"])]
      [⟨0, srcA, ["x"], "move"⟩, ⟨1, ["x"], ["y"], "move"⟩] (by decide) (by decide)⟩

/-! ## Checkpoint and preview invariance of the per-file pipeline -/

theorem attemptMove_checkpoint (env : Nat → Bool) (st : St) (src dst : FilePath0) :
    (attemptMove env st src dst).1.checkpoint = st.checkpoint := by
  unfold attemptMove
  dsimp only
  split <;> rfl

theorem recordUndo_checkpoint (st : St) (a b : FilePath0) :
    (recordUndo st a b).checkpoint = st.checkpoint := rfl

theorem backupFile_checkpoint (cfg : Config) (st : St) (src : FilePath0) :
    (backupFile cfg st src).1.checkpoint = st.checkpoint := by
  unfold backupFile
  cases cfg.backup with
  | none => rfl
  | some bdir =>
    dsimp only
    cases (st.fs.makedirs bdir).lookup src <;> rfl

theorem sidecars_checkpoint (env : Nat → Bool) (cfg : Config) (pv : Bool)
    (st : St) (src dst : FilePath0) :
    (processSidecars env cfg pv st src dst).checkpoint = st.checkpoint := by
  unfold processSidecars
  generalize cfg.metadataExtensions = exts
  induction exts generalizing st with
  | nil => rfl
  | cons x t ih =>
    rw [List.foldl_cons, ih]
    dsimp only
    split
    · split
      · rfl
      · split
        · rw [recordUndo_checkpoint, attemptMove_checkpoint]
        · rw [attemptMove_checkpoint]
    · rfl

theorem moveFileEx_checkpoint (env : Nat → Bool) (cfg : Config) (st : St)
    (src : FilePath0) (info : Info) (pv : Bool) :
    (moveFileEx env cfg st src info pv).1.checkpoint = st.checkpoint := by
  unfold moveFileEx
  dsimp only
  split
  · rfl
  · simp only [sidecars_checkpoint, recordUndo_checkpoint, attemptMove_checkpoint,
      backupFile_checkpoint, apply_ite (fun s : St => s.checkpoint),
      apply_ite (fun p : St × Bool => p.1.checkpoint), ite_self]

theorem makedirs_files (fs : FS) (p : FilePath0) :
    (fs.makedirs p).files = fs.files := rfl

theorem processSingleFile_checkpoint (env : Nat → Bool) (cfg : Config) (pv : Bool)
    (st : St) (fp : FilePath0) :
    (processSingleFile env cfg pv st fp).1.checkpoint = st.checkpoint := by
  unfold processSingleFile
  dsimp only
  cases h : extract_info fp <;> simp [h, moveFileEx_checkpoint]

theorem moveFileEx_preview_eq (env : Nat → Bool) (cfg : Config) (st : St)
    (src : FilePath0) (info : Info) :
    moveFileEx env cfg st src info true =
      ({ st with fs := st.fs.makedirs (pathDirname (build_output_path cfg info)) }, true) := rfl

theorem processSingleFile_preview_snd (env : Nat → Bool) (cfg : Config)
    (st : St) (fp : FilePath0) :
    (processSingleFile env cfg true st fp).2 = true := by
  unfold processSingleFile
  dsimp only
  cases h : extract_info fp <;> simp [h, moveFileEx_preview_eq]

theorem processSingleFile_preview_files (env : Nat → Bool) (cfg : Config)
    (st : St) (fp : FilePath0) :
    (processSingleFile env cfg true st fp).1.fs.files = st.fs.files := by
  unfold processSingleFile
  dsimp only
  cases h : extract_info fp <;> simp [h, moveFileEx_preview_eq, makedirs_files]

theorem processSingleFile_preview_history (env : Nat → Bool) (cfg : Config)
    (st : St) (fp : FilePath0) :
    (processSingleFile env cfg true st fp).1.history = st.history := by
  unfold processSingleFile
  dsimp only
  cases h : extract_info fp <;> simp [h, moveFileEx_preview_eq]

theorem seqStep_preview_checkpoint (env : Nat → Bool) (cfg : Config)
    (st : St) (fp : FilePath0) :
    (seqStep env cfg true st fp).checkpoint = insertPath fp st.checkpoint := by
  unfold seqStep
  dsimp only
  rw [processSingleFile_preview_snd]
  simp [processSingleFile_checkpoint]

theorem seqStep_preview_files (env : Nat → Bool) (cfg : Config)
    (st : St) (fp : FilePath0) :
    (seqStep env cfg true st fp).fs.files = st.fs.files := by
  unfold seqStep
  dsimp only
  rw [processSingleFile_preview_snd]
  simp [processSingleFile_preview_files]

theorem seqStep_preview_history (env : Nat → Bool) (cfg : Config)
    (st : St) (fp : FilePath0) :
    (seqStep env cfg true st fp).history = st.history := by
  unfold seqStep
  dsimp only
  rw [processSingleFile_preview_snd]
  simp [processSingleFile_preview_history]

theorem runSeq_preview_files (env : Nat → Bool) (cfg : Config)
    (files : List FilePath0) :
    ∀ st : St, (runSeq env cfg true st files).fs.files = st.fs.files := by
  induction files with
  | nil => intro st; rfl
  | cons x t ih =>
    intro st
    show (runSeq env cfg true (seqStep env cfg true st x) t).fs.files = st.fs.files
    rw [ih, seqStep_preview_files]

theorem runSeq_preview_history (env : Nat → Bool) (cfg : Config)
    (files : List FilePath0) :
    ∀ st : St, (runSeq env cfg true st files).history = st.history := by
  induction files with
  | nil => intro st; rfl
  | cons x t ih =>
    intro st
    show (runSeq env cfg true (seqStep env cfg true st x) t).history = st.history
    rw [ih, seqStep_preview_history]

theorem runSeq_preview_checkpoint (env : Nat → Bool) (cfg : Config)
    (files : List FilePath0) :
    ∀ st : St, (runSeq env cfg true st files).checkpoint =
      files.foldl (fun cp p => insertPath p cp) st.checkpoint := by
  induction files with
  | nil => intro st; rfl
  | cons x t ih =>
    intro st
    show (runSeq env cfg true (seqStep env cfg true st x) t).checkpoint = _
    rw [ih, List.foldl_cons, seqStep_preview_checkpoint]

theorem memB_insertPath (q p : FilePath0) (l : List FilePath0) :
    memB q (insertPath p l) = (memB q l || decide (q = p)) := by
  unfold insertPath
  by_cases h : memB p l = true
  · rw [if_pos h]
    by_cases hqp : q = p
    · subst hqp; simp [h]
    · simp [hqp]
  · rw [if_neg h]
    by_cases hqp : q = p
    · subst hqp; simp [memB, List.any_append]
    · simp [memB, List.any_append, hqp, show ¬p = q from fun hh => hqp hh.symm]

theorem memB_foldl_insert (files : List FilePath0) :
    ∀ (cp : List FilePath0) (q : FilePath0),
      memB q (files.foldl (fun c p => insertPath p c) cp)
        = (memB q cp || files.any (fun p => decide (p = q))) := by
  induction files with
  | nil => intro cp q; simp
  | cons x t ih =>
    intro cp q
    rw [List.foldl_cons, ih, memB_insertPath]
    by_cases hqx : q = x
    · subst hqx; simp
    · simp [hqx, show ¬x = q from fun hh => hqx hh.symm, Bool.or_assoc]

theorem collect_excludes (cfg : Config) (fs : FS) (cp : List FilePath0) :
    (collectFiles cfg fs cp).all (fun q => !(memB q cp)) = true := by
  rw [List.all_eq_true]
  intro q hq
  obtain ⟨e, he, rfl⟩ := List.mem_map.1 hq
  have hpred := (List.mem_filter.1 he).2
  unfold collectPred at hpred
  rw [Bool.and_eq_true] at hpred
  exact hpred.2

theorem collectFiles_files_congr (cfg : Config) (fs1 fs2 : FS)
    (h : fs1.files = fs2.files) (cp : List FilePath0) :
    collectFiles cfg fs1 cp = collectFiles cfg fs2 cp := by
  unfold collectFiles
  rw [h]

/-- C4 (amended): after one loop iteration of the sequential coordinator,
the persisted checkpoint gains the file exactly when its processing
returned without an exception (success or skip); when processing raised,
the checkpoint is unchanged — so the failed file will be selected again —
and in every case file collection never re-selects any path present in
the persisted checkpoint. -/
theorem c4_checkpoint_on_success (env : Nat → Bool) (cfg : Config) (pv : Bool)
    (st : St) (fp : FilePath0) (cfg2 : Config) (fs2 : FS) :
    ((seqStep env cfg pv st fp).checkpoint =
      if (processSingleFile env cfg pv st fp).2 then insertPath fp st.checkpoint
      else st.checkpoint)
    ∧ (collectFiles cfg2 fs2 (seqStep env cfg pv st fp).checkpoint).all
        (fun q => !(memB q (seqStep env cfg pv st fp).checkpoint)) = true := by
  constructor
  · unfold seqStep
    dsimp only
    by_cases h : (processSingleFile env cfg pv st fp).2 = true
    · simp [h, processSingleFile_checkpoint]
    · rw [Bool.not_eq_true] at h
      simp [h, processSingleFile_checkpoint]
  · exact collect_excludes cfg2 fs2 _

/-- C4 (counterexample): a file whose move raises on every attempt (the
oracle denies all `shutil.move` calls) is counted as an error, but its
path is NOT added to the checkpoint — the `processed.add` of the source
sits after the raising call inside the `try` block — and a subsequent
collection over the unchanged tree selects the same file again, so a
poison file is retried, contradicting the claim. -/
theorem c4_poison_retried :
    (processRun (fun _ => false) cfgTest false stOne).counters.errors = 1
    ∧ (processRun (fun _ => false) cfgTest false stOne).counters.processed = 1
    ∧ (processRun (fun _ => false) cfgTest false stOne).checkpoint = []
    ∧ collectFiles cfgTest (processRun (fun _ => false) cfgTest false stOne).fs
        (processRun (fun _ => false) cfgTest false stOne).checkpoint = [srcA] := by
  decide

/-- C10: in a preview run every collected file — resolved or not — ends up
in the persisted checkpoint, while the file table and the undo log are
unchanged; since collection excludes checkpointed paths, collecting again
over the same tree (as the subsequent execute run would) yields no files
at all. -/
theorem c10_preview_checkpoints_everything (env : Nat → Bool) (cfg : Config) (st : St) :
    ((collectFiles cfg st.fs st.checkpoint).all
      (fun fp => memB fp
        (runSeq env cfg true st (collectFiles cfg st.fs st.checkpoint)).checkpoint) = true)
    ∧ (runSeq env cfg true st (collectFiles cfg st.fs st.checkpoint)).fs.files = st.fs.files
    ∧ (runSeq env cfg true st (collectFiles cfg st.fs st.checkpoint)).history = st.history
    ∧ collectFiles cfg (runSeq env cfg true st (collectFiles cfg st.fs st.checkpoint)).fs
        (runSeq env cfg true st (collectFiles cfg st.fs st.checkpoint)).checkpoint = [] := by
  refine ⟨?_, runSeq_preview_files env cfg _ st, runSeq_preview_history env cfg _ st, ?_⟩
  · rw [List.all_eq_true]
    intro fp hfp
    rw [runSeq_preview_checkpoint, memB_foldl_insert]
    have : (collectFiles cfg st.fs st.checkpoint).any (fun p => decide (p = fp)) = true :=
      List.any_eq_true.2 ⟨fp, hfp, by simp⟩
    simp [this]
  · rw [collectFiles_files_congr cfg
      (runSeq env cfg true st (collectFiles cfg st.fs st.checkpoint)).fs st.fs
      (runSeq_preview_files env cfg _ st)]
    rw [runSeq_preview_checkpoint]
    unfold collectFiles
    rw [List.map_eq_nil_iff, List.filter_eq_nil_iff]
    intro e he hpred
    unfold collectPred at hpred
    rw [Bool.and_eq_true] at hpred
    obtain ⟨hbase, hnmem⟩ := hpred
    rw [Bool.not_eq_true', memB_foldl_insert, Bool.or_eq_false_iff] at hnmem
    obtain ⟨hcp, hany⟩ := hnmem
    have hmem1 : e.1 ∈ collectFiles cfg st.fs st.checkpoint := by
      apply List.mem_map.2
      refine ⟨e, List.mem_filter.2 ⟨he, ?_⟩, rfl⟩
      unfold collectPred
      rw [Bool.and_eq_true]
      exact ⟨hbase, by rw [Bool.not_eq_true', hcp]⟩
    rw [List.any_eq_false] at hany
    exact hany e.1 hmem1 (by simp)

/-- C1 (evaluation at the failing input): a preview run over a tree with
one resolvable file moves nothing and writes no undo entry, but it
mutates the filesystem nonetheless — `os.makedirs` on the destination
parent runs before the preview test, so the destination directory chain
appears on disk, and the checkpoint file is rewritten after the file —
contradicting the claim that every path on disk is exactly as it was. -/
theorem c1_preview_mutates :
    (processRun (fun _ => true) cfgTest true stOne).fs.files = stOne.fs.files
    ∧ (processRun (fun _ => true) cfgTest true stOne).history = stOne.history
    ∧ stOne.checkpoint = []
    ∧ (processRun (fun _ => true) cfgTest true stOne).checkpoint = [srcA]
    ∧ memB ["out", "Show", "Season 01"] stOne.fs.dirs = false
    ∧ memB ["out", "Show", "Season 01"]
        (processRun (fun _ => true) cfgTest true stOne).fs.dirs = true := by
  decide

/-- C2 (evaluation at the failing input): two source files resolving to
the identical destination.  `_move_file` never tests the destination for
existence; the second `shutil.move` silently replaces the first moved
file (POSIX rename semantics), the second source does not stay in place,
no conflict or error is recorded, and both files count as moved. -/
theorem c2_silent_overwrite :
    extract_info srcA = extract_info srcB
    ∧ fsTwo.lookup srcA = some ⟨1, 209715200⟩
    ∧ (processRun (fun _ => true) cfgTest false stTwo).fs.lookup dstMain
        = some ⟨2, 209715200⟩
    ∧ (processRun (fun _ => true) cfgTest false stTwo).fs.lookup srcB = none
    ∧ (processRun (fun _ => true) cfgTest false stTwo).counters.moved = 2
    ∧ (processRun (fun _ => true) cfgTest false stTwo).counters.errors = 0
    ∧ (processRun (fun _ => true) cfgTest false stTwo).counters.skipped = 0 := by
  decide

/-- C9 (counterexample): with an oracle that fails only the very first
`shutil.move` call, a retry of the direct move would succeed; instead the
mover issues exactly one direct attempt and its next two calls are the
staging-path moves — there is no retry loop (and no `max_retry`
configuration key) in the code. -/
theorem c9_no_direct_retry :
    (fun i : Nat => !(i == 0)) 1 = true
    ∧ (processRun (fun i : Nat => !(i == 0)) cfgTest false stOne).moveCalls
        = [(srcA, dstMain), (srcA, tempA), (tempA, dstMain)]
    ∧ (processRun (fun i : Nat => !(i == 0)) cfgTest false stOne).moveCalls.get? 1
        = some (srcA, tempA)
    ∧ (srcA, tempA) ≠ (srcA, dstMain) := by
  decide

/-- C9 (amended): on the first and only failure of the direct move with
`retry_on_error` enabled, the mover immediately attempts the staging
fallback — one move into the `.temp` directory beside the destination and
one from there to the destination — and on its success the file is in
place and counted moved with no error; when the fallback also fails, the
failure is recorded as an error for that file only and the run continues
with the remaining files, leaving the failed sources in place. -/
theorem c9_fallback_behavior :
    ((processRun (fun i : Nat => !(i == 0)) cfgTest false stOne).moveCalls
        = [(srcA, dstMain), (srcA, tempA), (tempA, dstMain)]
      ∧ (processRun (fun i : Nat => !(i == 0)) cfgTest false stOne).counters.moved = 1
      ∧ (processRun (fun i : Nat => !(i == 0)) cfgTest false stOne).counters.errors = 0
      ∧ (processRun (fun i : Nat => !(i == 0)) cfgTest false stOne).fs.lookup dstMain
          = some ⟨1, 209715200⟩
      ∧ (processRun (fun i : Nat => !(i == 0)) cfgTest false stOne).fs.lookup srcA = none)
    ∧ ((processRun (fun _ => false) cfgTest false stTwo).counters.errors = 2
      ∧ (processRun (fun _ => false) cfgTest false stTwo).counters.processed = 2
      ∧ (processRun (fun _ => false) cfgTest false stTwo).counters.moved = 0
      ∧ (processRun (fun _ => false) cfgTest false stTwo).fs.lookup srcA
          = some ⟨1, 209715200⟩
      ∧ (processRun (fun _ => false) cfgTest false stTwo).fs.lookup srcB
          = some ⟨2, 209715200⟩) := by
  decide

/-- C5: whenever the directory-based step of `extract_info` succeeds (a
season is found in the immediate or parent directory name with a
non-empty title), its record — title filtered, original extension
attached — is the result of `extract_info`, even when the filename step
would also succeed: the ordered fallback chain stops at the first
succeeding step. -/
theorem c5_dir_step_priority (fp : FilePath0) (r r2 : Info0)
    (hdir : extract_info_from_dir (pathBasename (pathDirname fp))
        (pathBasename (pathDirname (pathDirname fp))) = some r)
    (_hfile : extract_info_from_filename (splitextPair (pathBasename fp)).1 = some r2) :
    extract_info fp = some ⟨filter_chinese r.title, r.season, r.episode,
      (splitextPair (pathBasename fp)).2⟩ := by
  unfold extract_info
  dsimp only
  rw [hdir]

/-- Witness for C5: the directory name parses as season 1 while the
filename parses as season 2 episode 3; the directory-based record
wins. -/
theorem c5_dir_step_priority_witness :
    extract_info_from_dir "Show S01" "root" = some ⟨"Show", 1, 1⟩
    ∧ extract_info_from_filename "Show.S02E03" = some ⟨"Show", 2, 3⟩
    ∧ extract_info ["root", "Show S01", "Show.S02E03.mkv"] =
        some ⟨filter_chinese "Show", 1, 1,
          (splitextPair (pathBasename ["root", "Show S01", "Show.S02E03.mkv"])).2⟩ :=
  ⟨by decide, by decide,
    c5_dir_step_priority ["root", "Show S01", "Show.S02E03.mkv"]
      ⟨"Show", 1, 1⟩ ⟨"Show", 2, 3⟩ (by decide) (by decide)⟩

/-- C7 (counterexample): the season parser lookup table stops at 十; the
compound numeral 十一 is rejected by the season parser (`int` on the
stripped string raises) while the episode parser accepts it. -/
theorem c7_season_missing_compounds :
    parse_season_number "十一" = none ∧ parse_episode_number "十一" = some 11 := by
  decide

/-- C7 (amended): the episode parser accepts every CJK numeral 一 through
二十 including the compound forms; the season parser accepts only 一
through 十 and rejects every compound 十一 through 二十; both parse plain
numeric strings as base-10 integers, with leading `S`/`s` stripped for
season tokens. -/
theorem c7_numeral_support :
    ((List.range 20).all
      (fun k => parse_episode_number (cnNumeral (k + 1)) == some (k + 1))) = true
    ∧ ((List.range 10).all
      (fun k => parse_season_number (cnNumeral (k + 1)) == some (k + 1))) = true
    ∧ ((List.range 10).all
      (fun k => parse_season_number (cnNumeral (k + 11)) == none)) = true
    ∧ ((List.range 100).all
      (fun n => parse_episode_number (toString n) == some n)) = true
    ∧ ((List.range 100).all
      (fun n => parse_season_number ("S" ++ toString n) == some n)) = true
    ∧ ((List.range 100).all
      (fun n => parse_season_number ("s" ++ toString n) == some n)) = true := by
  decide

theorem tryDirPat_episode (d : String) (srch : List Char → Option (List Char))
    (sub : List Char → List Char) (r : Info0)
    (h : tryDirPat d srch sub = some r) : r.episode = 1 := by
  unfold tryDirPat at h
  cases hs : srch d.toList with
  | none => rw [hs] at h; exact absurd h (by simp)
  | some g =>
    rw [hs] at h
    dsimp only at h
    cases hp : parse_season_number (String.mk g) with
    | none => rw [hp] at h; exact absurd h (by simp)
    | some season =>
      rw [hp] at h
      dsimp only at h
      split at h
      · exact absurd h (by simp)
      · injection h with h2
        rw [← h2]

theorem tryParentPat_episode (dn pn : String) (srch : List Char → Option (List Char))
    (r : Info0) (h : tryParentPat dn pn srch = some r) : r.episode = 1 := by
  unfold tryParentPat at h
  cases hs : srch pn.toList with
  | none => rw [hs] at h; exact absurd h (by simp)
  | some g =>
    rw [hs] at h
    dsimp only at h
    cases hp : parse_season_number (String.mk g) with
    | none => rw [hp] at h; exact absurd h (by simp)
    | some season =>
      rw [hp] at h
      injection h with h2
      rw [← h2]

/-- C6 (amended): every record the directory-based extraction step
produces carries the literal episode number 1 — the step never consults
the filename or the episode-pattern list; the combination of a directory
season with a filename-extracted episode exists only in the later mixed
fallback step, which is shadowed whenever the directory step succeeds. -/
theorem c6_dir_episode_constant (d p : String) (r : Info0)
    (h : extract_info_from_dir d p = some r) : r.episode = 1 := by
  unfold extract_info_from_dir at h
  rcases (Option.orElse_eq_some _ _ _).1 h with h1 | ⟨_, h⟩
  · exact tryDirPat_episode _ _ _ _ h1
  rcases (Option.orElse_eq_some _ _ _).1 h with h1 | ⟨_, h⟩
  · exact tryDirPat_episode _ _ _ _ h1
  rcases (Option.orElse_eq_some _ _ _).1 h with h1 | ⟨_, h⟩
  · exact tryDirPat_episode _ _ _ _ h1
  rcases (Option.orElse_eq_some _ _ _).1 h with h1 | ⟨_, h⟩
  · exact tryDirPat_episode _ _ _ _ h1
  rcases (Option.orElse_eq_some _ _ _).1 h with h1 | ⟨_, h⟩
  · exact tryParentPat_episode _ _ _ _ h1
  rcases (Option.orElse_eq_some _ _ _).1 h with h1 | ⟨_, h⟩
  · exact tryParentPat_episode _ _ _ _ h1
  rcases (Option.orElse_eq_some _ _ _).1 h with h1 | ⟨_, h⟩
  · exact tryParentPat_episode _ _ _ _ h1
  exact tryParentPat_episode _ _ _ _ h

/-- Witness for C6 (amended). -/
theorem c6_dir_episode_constant_witness :
    extract_info_from_dir "Show S01" "root" = some ⟨"Show", 1, 1⟩
    ∧ (⟨"Show", 1, 1⟩ : Info0).episode = 1 :=
  ⟨by decide, c6_dir_episode_constant "Show S01" "root" ⟨"Show", 1, 1⟩ (by decide)⟩

/-- C6 (counterexample): a file whose directory gives the season and
whose filename carries an unmistakable episode marker `E05` (matched by
the first configured episode pattern): the returned record has episode 1,
not the filename-extracted 5 — the episode is a constant, not extracted
from the filename. -/
theorem c6_episode_not_from_filename :
    extract_info ["src", "Show S01", "Show.E05.mkv"] = some ⟨"Show", 1, 1, ".mkv"⟩
    ∧ extract_episode "Show.E05" = some 5
    ∧ (1 : Nat) ≠ 5 := by
  decide

theorem cjkRunsF_ne_nil : ∀ (fuel : Nat) (s : List Char), s.length ≤ fuel →
    s.any isCJKb = true → cjkRunsF fuel s ≠ [] := by
  intro fuel
  induction fuel with
  | zero =>
    intro s hl ha
    cases s with
    | nil => simp at ha
    | cons c rest => simp at hl
  | succ n ih =>
    intro s hl ha
    cases s with
    | nil => simp at ha
    | cons c rest =>
      unfold cjkRunsF
      by_cases hc : isCJKb c = true
      · simp [hc]
      · rw [Bool.not_eq_true] at hc
        simp only [hc, Bool.false_eq_true, if_false]
        apply ih rest (Nat.le_of_succ_le_succ (by simpa using hl))
        simpa [List.any_cons, hc] using ha

theorem cjkRunsF_chars : ∀ (fuel : Nat) (s run : List Char),
    run ∈ cjkRunsF fuel s → ∀ c ∈ run, isCJKb c = true := by
  intro fuel
  induction fuel with
  | zero => intro s run h; simp [cjkRunsF] at h
  | succ n ih =>
    intro s run h
    cases s with
    | nil => simp [cjkRunsF] at h
    | cons c rest =>
      unfold cjkRunsF at h
      dsimp only at h
      by_cases hc : isCJKb c = true
      · rw [if_pos hc] at h
        rcases List.mem_cons.1 h with h | h
        · subst h
          intro x hx
          rcases List.mem_cons.1 hx with hx | hx
          · subst hx; exact hc
          · exact List.mem_takeWhile_imp hx
        · exact ih _ _ h
      · rw [Bool.not_eq_true] at hc
        rw [hc] at h
        simp only [Bool.false_eq_true, if_false] at h
        exact ih _ _ h

theorem all_intercalate_space (p : Char → Bool) (hsep : p ' ' = true) :
    ∀ l : List (List Char), (∀ x ∈ l, x.all p = true) →
      (List.intercalate [' '] l).all p = true := by
  intro l
  induction l with
  | nil => intro _; simp [List.intercalate]
  | cons x rest ih =>
    intro h
    cases rest with
    | nil => simpa [List.intercalate] using h x (by simp)
    | cons y t =>
      have hx := h x (by simp)
      have hrest : (List.intercalate [' '] (y :: t)).all p = true := by
        apply ih
        intro z hz
        exact h z (by simp [hz])
      rw [List.intercalate] at hrest ⊢
      rw [List.intersperse_cons_cons]
      simp only [List.flatten, List.all_append]
      simp [hx, hsep, hrest]

/-- C8 (amended): for every title containing at least one CJK character,
the normalizer returns exactly the CJK runs joined by single spaces (in
original order); every character of the result is CJK or a space, so any
Latin or ASCII remainder is dropped entirely rather than appended. -/
theorem c8_cjk_runs_joined (t : String) (h : t.toList.any isCJKb = true) :
    filter_chinese t = String.mk (List.intercalate [' '] (cjkRuns t.toList))
    ∧ (filter_chinese t).toList.all (fun c => isCJKb c || c == ' ') = true := by
  have hne : ¬((t == "") = true) := by
    intro hb
    have ht : t = "" := eq_of_beq hb
    subst ht
    simp at h
  have hruns : cjkRuns t.toList ≠ [] := cjkRunsF_ne_nil _ _ le_rfl h
  have h1 : filter_chinese t = String.mk (List.intercalate [' '] (cjkRuns t.toList)) := by
    unfold filter_chinese
    rw [if_neg hne]
    dsimp only
    rw [if_neg (by simpa [List.isEmpty_iff] using hruns)]
  refine ⟨h1, ?_⟩
  rw [h1]
  show (List.intercalate [' '] (cjkRuns t.toList)).all (fun c => isCJKb c || c == ' ') = true
  apply all_intercalate_space _ (by decide)
  intro x hx
  rw [List.all_eq_true]
  intro c hc
  simp [cjkRunsF_chars _ _ x hx c hc]

/-- Witness for C8 (amended): the specified release-tag example keeps
exactly 英雄本色. -/
theorem c8_cjk_runs_joined_witness :
    filter_chinese "英雄本色.1986.1080p.BluRay.x264-GROUP" = "英雄本色"
    ∧ (filter_chinese "英雄本色.1986.1080p.BluRay.x264-GROUP" =
        String.mk (List.intercalate [' ']
          (cjkRuns "英雄本色.1986.1080p.BluRay.x264-GROUP".toList))
      ∧ (filter_chinese "英雄本色.1986.1080p.BluRay.x264-GROUP").toList.all
          (fun c => isCJKb c || c == ' ') = true) :=
  ⟨by decide, c8_cjk_runs_joined "英雄本色.1986.1080p.BluRay.x264-GROUP" (by decide)⟩

/-- C8 (counterexample): a title with the CJK run 英雄 and the non-empty
Latin remainder `ABC`: the claim requires the remainder appended after a
space, but the normalizer drops it. -/
theorem c8_latin_remainder_dropped :
    filter_chinese "英雄ABC" = "英雄" ∧ filter_chinese "英雄ABC" ≠ "英雄 ABC" := by
  decide
